import Mathlib

/-
Shallow embedding of the task-scheduling subsystem of the audiopaper
repository, src/utils/task_queue.py (class TaskQueue) together with the
Task row model of src/database.py (columns id, status, result, where
result holds the JSON-serialized scheduling payload).

Modelling conventions, fixed once for the whole file:
 - A JSON payload is an insertion-ordered association list of key/value
   pairs (Python dicts preserve insertion order, and the code builds
   payloads only through dict literals and merge-updates of the form
   dict-splat-then-overrides, which replace an existing key in place and
   append a fresh key at the end).
 - Timestamps (datetime.utcnow().isoformat(), timedelta arithmetic) are
   modelled as integer seconds since the epoch: the model keeps the
   order and the additive structure of the real timestamps, which is all
   the code ever uses of them.
 - The metadata value is an opaque already-serialized JSON fragment
   (constructor jraw); the queue code never looks inside it.
 - The store is the list of Task rows; SQLAlchemy primary-key lookup is
   first-match-by-id, commit of a mutated row is an in-place update.
 - The ORDER BY of get_next_task (status ascending, result text
   descending, BINARY collation on the serialized text) is modelled by a
   stable insertion sort over the same comparison; SQLite leaves the
   order of rows with identical sort keys unspecified, and identical
   keys here mean identical status and identical payload text.
-/

namespace AudioPaper

/-- A JSON value as stored inside the Task.result payload column. -/
inductive JVal where
  | jstr : String → JVal
  | jint : Int → JVal
  | jnull : JVal
  | jraw : String → JVal
deriving DecidableEq, Repr

/-- A JSON object: insertion-ordered key/value pairs, keys unique. -/
abbrev JObj := List (String × JVal)

/-- Python dict lookup d.get(k): the value at the first occurrence of k. -/
def jGet : JObj → String → Option JVal
  | [], _ => none
  | (k0, v0) :: rest, k => if k0 = k then some v0 else jGet rest k

/-- Python merge-update (dict splat with one override): replace key k in
place when present, append it at the end otherwise. -/
def jSet : JObj → String → JVal → JObj
  | [], k, v => [(k, v)]
  | (k0, v0) :: rest, k, v =>
      if k0 = k then (k, v) :: rest else (k0, v0) :: jSet rest k v

/-- Python d.get(k, default) read as an integer; the payloads built by the
queue code always hold integers at the keys this is applied to. -/
def jGetInt (o : JObj) (k : String) (d : Int) : Int :=
  match jGet o k with
  | some (JVal.jint n) => n
  | _ => d

/-- The six status strings of the TaskStatus enum in task_queue.py. -/
inductive TaskStatus where
  | pending
  | queued
  | processing
  | complete
  | error
  | retrying
deriving DecidableEq, Repr

/-- The string value each TaskStatus member carries (it subclasses str,
so this is exactly the text stored in the status column). -/
def statusText : TaskStatus → String
  | TaskStatus.pending => "pending"
  | TaskStatus.queued => "queued"
  | TaskStatus.processing => "processing"
  | TaskStatus.complete => "complete"
  | TaskStatus.error => "error"
  | TaskStatus.retrying => "retrying"

/-- One Task row of src/database.py: id, status, and the JSON payload of
the result column (always populated by the queue code). -/
structure Task where
  id : String
  status : TaskStatus
  result : JObj
deriving DecidableEq, Repr

/-- The task table. -/
abbrev Store := List Task

/-- Task.query.get(task_id): primary-key lookup. -/
def findTask : Store → String → Option Task
  | [], _ => none
  | t :: ts, i => if t.id = i then some t else findTask ts i

/-- Commit of a mutated row: replace the row whose id matches. -/
def updateStore (s : Store) (i : String) (t : Task) : Store :=
  s.map (fun u => if u.id = i then t else u)

/-- Lowercase hexadecimal digit, for the generic JSON control escape. -/
def hexDigit (n : Nat) : Char :=
  if n < 10 then Char.ofNat (48 + n) else Char.ofNat (87 + n)

/-- Four lowercase hex digits, as json.dumps prints control characters. -/
def hex4 (n : Nat) : String :=
  String.mk [hexDigit (n / 4096 % 16), hexDigit (n / 256 % 16),
             hexDigit (n / 16 % 16), hexDigit (n % 16)]

/-- The escape json.dumps applies to one character of a string value
(faithful for the ASCII payloads the queue produces; characters at or
above 128 would additionally be escaped by ensure_ascii, and never occur
in the payloads considered here). -/
def jsonEscapeChar (c : Char) : String :=
  if c = '\\' then "\\\\"
  else if c = '"' then "\\\""
  else if c = Char.ofNat 8 then "\\b"
  else if c = Char.ofNat 12 then "\\f"
  else if c = '\n' then "\\n"
  else if c = '\r' then "\\r"
  else if c = '\t' then "\\t"
  else if c.toNat < 32 then "\\u" ++ hex4 c.toNat
  else String.mk [c]

/-- String-body escaping of json.dumps. -/
def jsonEscape (s : String) : String :=
  String.join (s.data.map jsonEscapeChar)

/-- Serialization of one JSON value, as json.dumps renders it. -/
def serJVal : JVal → String
  | JVal.jstr s => "\"" ++ jsonEscape s ++ "\""
  | JVal.jint n => toString n
  | JVal.jnull => "null"
  | JVal.jraw r => r

/-- Serialization of the fields of an object, default separators. -/
def serFields : JObj → String
  | [] => ""
  | [(k, v)] => "\"" ++ jsonEscape k ++ "\": " ++ serJVal v
  | (k, v) :: rest => "\"" ++ jsonEscape k ++ "\": " ++ serJVal v ++ ", " ++ serFields rest

/-- json.dumps of a payload object: the exact text stored in the result
column and compared by the ORDER BY of get_next_task. -/
def serObj (o : JObj) : String :=
  "\x7b" ++ serFields o ++ "\x7d"

/-- Bytewise comparison of two character lists; on the UTF-8 texts of
the store this is exactly the BINARY collation SQLite sorts by. -/
def charsLt : List Char → List Char → Bool
  | [], [] => false
  | [], _ :: _ => true
  | _ :: _, [] => false
  | a :: as, b :: bs =>
      if a.toNat < b.toNat then true
      else if b.toNat < a.toNat then false
      else charsLt as bs

/-- Strict text order used by the ORDER BY model. -/
def strLtB (a b : String) : Bool := charsLt a.data b.data

/-- The sort key of get_next_task: ORDER BY Task.status (ascending text),
then Task.result.desc() (serialized payload text, descending). -/
def claimOrder (a b : Task) : Bool :=
  if statusText a.status = statusText b.status then
    !(strLtB (serObj a.result) (serObj b.result))
  else strLtB (statusText a.status) (statusText b.status)

/-- Stable insertion of one row into a sorted list. -/
def insertSorted (le : Task → Task → Bool) (t : Task) : List Task → List Task
  | [] => [t]
  | u :: us => if le t u then t :: u :: us else u :: insertSorted le t us

/-- Stable sort by the given comparison. -/
def sortBy (le : Task → Task → Bool) : List Task → List Task
  | [] => []
  | t :: ts => insertSorted le t (sortBy le ts)

/-- The snapshot query of get_next_task: rows whose status is in
(pending, queued), ordered by status then payload text descending. -/
def pendingSnapshot (s : Store) : List Task :=
  sortBy claimOrder
    (s.filter (fun t => decide (t.status = TaskStatus.pending) ||
                        decide (t.status = TaskStatus.queued)))

/-- Truthiness of task_data.get of the depends_on key, as the code tests
it: absent, null and the empty string are falsy; the payloads built by
enqueue only ever hold null or a uuid string there. -/
def dependsOnTruthy : Option JVal → Option String
  | some (JVal.jstr s) => if s = "" then none else some s
  | _ => none

/-- The depends_on reference of a payload, when truthy. -/
def getDependsOn (o : JObj) : Option String :=
  dependsOnTruthy (jGet o "depends_on")

/-- The scan loop of TaskQueue.get_next_task over the snapshot list: a
row with no dependency is returned at once; a row whose dependency row
exists and is complete is returned; a row whose dependency row exists
and is error is rewritten to error (message naming the dependency id)
and skipped; any other row is skipped. Returns the selected row, if any,
and the store as mutated by the error cascades committed on the way. -/
def getNextLoop (s : Store) : List Task → Option Task × Store
  | [] => (none, s)
  | task :: rest =>
    match getDependsOn task.result with
    | none => (some task, s)
    | some dep =>
      match findTask s dep with
      | none => getNextLoop s rest
      | some depTask =>
        if depTask.status = TaskStatus.complete then (some task, s)
        else if depTask.status = TaskStatus.error then
          getNextLoop
            (updateStore s task.id
              { task with
                status := TaskStatus.error
                result := jSet task.result "error"
                  (JVal.jstr ("Dependency " ++ dep ++ " failed")) })
            rest
        else getNextLoop s rest

/-- TaskQueue.get_next_task (src/utils/task_queue.py lines 132 to 162). -/
def getNextTask (s : Store) : Option Task × Store :=
  getNextLoop s (pendingSnapshot s)

/-- The claim step of TaskQueue worker loop (lines 388 to 393): call
get_next_task, then separately set the returned row to queued and
commit. Returns the claimed task id, if any. -/
def claimNext (s : Store) : Option String × Store :=
  match getNextTask s with
  | (none, s1) => (none, s1)
  | (some t, s1) =>
      (some t.id, updateStore s1 t.id { t with status := TaskStatus.queued })

/-- Outcome of invoking a handler: it either returns normally or raises;
either way it may itself have committed store mutations, and the store
field is the committed state at the moment of return or raise (the
rollback in process_task discards only uncommitted handler work). -/
inductive HandlerOutcome where
  | ok : Store → HandlerOutcome
  | exn : String → Store → HandlerOutcome

/-- A registered handler: receives the committed store, the task id and
the file_id payload value (the application context carries no state the
model tracks). -/
abbrev Handler := Store → String → JVal → HandlerOutcome

/-- Lookup in the _task_handlers dict: keys are the strings passed to
register_handler, so a non-string task_type value finds nothing. -/
def regLookup (reg : List (String × Handler)) : Option JVal → Option Handler
  | some (JVal.jstr s) => (reg.find? (fun p => p.1 = s)).map (fun p => p.2)
  | _ => none

/-- How an f-string renders the task_type value in the missing-handler
message (Python prints the bare string, None for null or a missing key). -/
def pyShow : Option JVal → String
  | none => "None"
  | some (JVal.jstr s) => s
  | some (JVal.jint n) => toString n
  | some JVal.jnull => "None"
  | some (JVal.jraw r) => r

/-- The except branch of TaskQueue.process_task (lines 205 to 236): read
attempts and max_attempts from the payload loaded at entry (note: the
increment committed by the processing mark is not in that payload), and
either schedule a retry with exponential backoff or record a terminal
error. -/
def recordFailure (task : Task) (td : JObj) (msg : String) (maxR : Int) (now : Int)
    (s : Store) : Bool × Store :=
  let attempts := jGetInt td "attempts" 0
  let maxA := jGetInt td "max_attempts" maxR
  if attempts < maxA then
    let delay : Int := min ((2 : Int) ^ attempts.toNat * 60) 3600
    (false, updateStore s task.id
      { task with
        status := TaskStatus.retrying
        result := jSet (jSet (jSet td "attempts" (JVal.jint attempts))
                    "retry_at" (JVal.jint (now + delay)))
                    "last_error" (JVal.jstr msg) })
  else
    (false, updateStore s task.id
      { task with
        status := TaskStatus.error
        result := jSet (jSet td "error" (JVal.jstr msg))
                    "failed_at" (JVal.jint now) })

/-- TaskQueue.process_task (lines 164 to 236). Steps, in source order:
load the payload; resolve the handler, recording an immediate error when
none is registered; commit the processing mark (status processing,
payload with attempts incremented and started_at added); read file_id
from the entry payload (a missing key raises KeyError before the handler
runs, caught like any handler failure); invoke the handler; on normal
return refresh the row and, when it is still processing, commit it
complete with the completion record built from the entry payload; on an
exception run the failure branch. Returns the boolean the Python
function returns, and the committed store. -/
def process_task (reg : List (String × Handler)) (maxR : Int) (now : Int)
    (s : Store) (task : Task) : Bool × Store :=
  let td := task.result
  let tt := jGet td "task_type"
  match regLookup reg tt with
  | none =>
      (false, updateStore s task.id
        { task with
          status := TaskStatus.error
          result := jSet td "error"
            (JVal.jstr ("No handler for task type: " ++ pyShow tt)) })
  | some handler =>
    let tdProc := jSet (jSet td "attempts" (JVal.jint (jGetInt td "attempts" 0 + 1)))
                    "started_at" (JVal.jint now)
    let s1 := updateStore s task.id
      { task with
        status := TaskStatus.processing
        result := tdProc }
    match jGet td "file_id" with
    | none => recordFailure task td "\x27file_id\x27" maxR now s1
    | some fid =>
      match handler s1 task.id fid with
      | HandlerOutcome.ok s2 =>
        match findTask s2 task.id with
        | some t2 =>
          if t2.status = TaskStatus.processing then
            (true, updateStore s2 task.id
              { t2 with
                status := TaskStatus.complete
                result := jSet td "completed_at" (JVal.jint now) })
          else (decide (t2.status = TaskStatus.complete), s2)
        | none => recordFailure task td "instance refresh failed" maxR now s2
      | HandlerOutcome.exn msg s2 => recordFailure task td msg maxR now s2

/-- TaskQueue.retry_task (lines 238 to 248): look the row up by id; when
present, set it pending with attempts zero and a manual retry marker in
the payload, and report success. -/
def retry_task (s : Store) (tid : String) : Bool × Store :=
  match findTask s tid with
  | none => (false, s)
  | some t =>
      (true, updateStore s tid
        { t with
          status := TaskStatus.pending
          result := jSet (jSet t.result "attempts" (JVal.jint 0))
                      "retry_reason" (JVal.jstr "manual") })

/-- The payload dict built by TaskQueue.enqueue (lines 84 to 99), keys in
literal order; metadata is the serialized caller dict, or the empty
object when the caller passed nothing truthy. -/
def enqueuePayload (task_type : String) (file_id : Int) (priority : Int)
    (metadata : Option JVal) (depends_on : Option String) (maxR : Int)
    (created_at : Int) : JObj :=
  [("task_type", JVal.jstr task_type),
   ("file_id", JVal.jint file_id),
   ("priority", JVal.jint priority),
   ("metadata", (match metadata with
                 | none => JVal.jraw "\x7b\x7d"
                 | some v => v)),
   ("depends_on", (match depends_on with
                   | none => JVal.jnull
                   | some d => JVal.jstr d)),
   ("attempts", JVal.jint 0),
   ("max_attempts", JVal.jint maxR),
   ("created_at", JVal.jint created_at)]

/-- TaskQueue.enqueue (lines 61 to 104): append a fresh pending row whose
payload is the literal above (the status expression in the source reads
pending in both branches of its conditional). The uuid is a parameter. -/
def enqueue (s : Store) (tid : String) (task_type : String) (file_id : Int)
    (priority : Int) (metadata : Option JVal) (depends_on : Option String)
    (maxR : Int) (created_at : Int) : Store × String :=
  (s ++ [Task.mk tid TaskStatus.pending
          (enqueuePayload task_type file_id priority metadata depends_on maxR created_at)],
   tid)

/-- One entry of the per-task detail list of get_batch_status. -/
structure BatchTaskView where
  id : String
  status : TaskStatus
  file_id : Option JVal
  error : Option JVal
  attempts : Int
deriving DecidableEq, Repr

/-- The aggregate view returned by get_batch_status. -/
structure BatchStatus where
  total : Nat
  complete : Nat
  error : Nat
  processing : Nat
  pending : Nat
  tasks : List BatchTaskView
deriving DecidableEq, Repr

/-- TaskQueue.get_batch_status (lines 306 to 358): filter every row on a
top-level batch_id payload key equal to the argument; an empty match
returns the all-zero view; otherwise count complete, error and
processing rows, bucket every other status as pending, and list the
per-task details. -/
def get_batch_status (s : Store) (batch_id : String) : BatchStatus :=
  let matched := s.filter
    (fun t => decide (jGet t.result "batch_id" = some (JVal.jstr batch_id)))
  if matched.isEmpty then BatchStatus.mk 0 0 0 0 0 []
  else
    BatchStatus.mk matched.length
      (matched.filter (fun t => decide (t.status = TaskStatus.complete))).length
      (matched.filter (fun t => decide (t.status = TaskStatus.error))).length
      (matched.filter (fun t => decide (t.status = TaskStatus.processing))).length
      (matched.filter (fun t => !(decide (t.status = TaskStatus.complete) ||
                                  decide (t.status = TaskStatus.error) ||
                                  decide (t.status = TaskStatus.processing)))).length
      (matched.map (fun t => BatchTaskView.mk t.id t.status
        (jGet t.result "file_id") (jGet t.result "error")
        (jGetInt t.result "attempts" 0)))

/-- One body iteration of the worker loop (lines 384 to 399): claim the
next task via get_next_task plus the separate queued mark, then run
process_task on the claimed row. -/
def workerRound (reg : List (String × Handler)) (maxR : Int) (now : Int)
    (s : Store) : Store :=
  match claimNext s with
  | (none, s1) => s1
  | (some tid, s1) =>
    match findTask s1 tid with
    | none => s1
    | some t => (process_task reg maxR now s1 t).2

/-- Eligibility of a task exactly as section 4.2 of the specification
words it, written from the spec rather than the source so the selection
the code makes can be compared against it: status pending, or retrying
with retry_at elapsed, and the dependency, when present, complete. -/
def specEligible (s : Store) (now : Int) (t : Task) : Bool :=
  (decide (t.status = TaskStatus.pending) ||
    (decide (t.status = TaskStatus.retrying) &&
      (match jGet t.result "retry_at" with
       | some (JVal.jint r) => decide (r ≤ now)
       | _ => false))) &&
  (match getDependsOn t.result with
   | none => true
   | some d =>
     match findTask s d with
     | some dt => decide (dt.status = TaskStatus.complete)
     | none => false)

/-- Prefix test on character lists, for the substring check below. -/
def listPre : List Char → List Char → Bool
  | [], _ => true
  | _ :: _, [] => false
  | a :: as, b :: bs => a == b && listPre as bs

/-- Substring test on character lists. -/
def listSub : List Char → List Char → Bool
  | needle, [] => needle.isEmpty
  | needle, c :: rest => listPre needle (c :: rest) || listSub needle rest

/-- Substring containment of texts, used to state that an error message
references (contains) an id or a message. -/
def strContains (hay needle : String) : Bool :=
  listSub needle.data hay.data

/-- Reading a key a merge-update did not touch gives the old value. -/
theorem jGet_jSet_ne (o : JObj) (k k0 : String) (v : JVal) (h : k ≠ k0) :
    jGet (jSet o k v) k0 = jGet o k0 := by
  induction o with
  | nil => simp [jSet, jGet, h]
  | cons p rest ih =>
    obtain ⟨pk, pv⟩ := p
    by_cases hk : pk = k
    · subst hk
      simp [jSet, jGet, h]
    · by_cases hk0 : pk = k0
      · simp [jSet, jGet, hk, hk0, Ne.symm h]
      · simp [jSet, jGet, hk, hk0, ih]

/-- Reading the key a merge-update wrote gives the new value. -/
theorem jGet_jSet_self (o : JObj) (k : String) (v : JVal) :
    jGet (jSet o k v) k = some v := by
  induction o with
  | nil => simp [jSet, jGet]
  | cons p rest ih =>
    obtain ⟨pk, pv⟩ := p
    by_cases hk : pk = k
    · simp [jSet, jGet, hk]
    · simp [jSet, jGet, hk, ih]

/-- A primary-key hit carries the looked-up id. -/
theorem findTask_some_id (s : Store) (i : String) (t : Task)
    (h : findTask s i = some t) : t.id = i := by
  induction s with
  | nil => simp [findTask] at h
  | cons u rest ih =>
    by_cases hu : u.id = i
    · rw [findTask, if_pos hu] at h
      cases h
      exact hu
    · rw [findTask, if_neg hu] at h
      exact ih h

/-- A primary-key hit is a member of the table. -/
theorem findTask_mem (s : Store) (i : String) (t : Task)
    (h : findTask s i = some t) : t ∈ s := by
  induction s with
  | nil => simp [findTask] at h
  | cons u rest ih =>
    by_cases hu : u.id = i
    · rw [findTask, if_pos hu] at h
      injection h with hh
      subst hh
      exact List.mem_cons_self _ _
    · rw [findTask, if_neg hu] at h
      exact List.mem_cons_of_mem u (ih h)

/-- After committing a row update, looking the id up returns the update. -/
theorem findTask_updateStore_eq (s : Store) (i : String) (t t2 : Task)
    (h : findTask s i = some t) (h2 : t2.id = i) :
    findTask (updateStore s i t2) i = some t2 := by
  induction s with
  | nil => simp [findTask] at h
  | cons u rest ih =>
    by_cases hu : u.id = i
    · simp [updateStore, findTask, hu, h2]
    · rw [findTask, if_neg hu] at h
      simpa [updateStore, findTask, hu] using ih h

/-- Committing a row update leaves lookups of other ids unchanged. -/
theorem findTask_updateStore_ne (s : Store) (i j : String) (t2 : Task)
    (hij : i ≠ j) (h2 : t2.id = j) :
    findTask (updateStore s j t2) i = findTask s i := by
  induction s with
  | nil => simp [updateStore, findTask]
  | cons u rest ih =>
    show findTask ((if u.id = j then t2 else u) :: updateStore rest j t2) i
        = findTask (u :: rest) i
    by_cases hu : u.id = j
    · have hti : t2.id ≠ i := by
        rw [h2]
        exact fun hh => hij hh.symm
      have hui : u.id ≠ i := by
        rw [hu]
        exact fun hh => hij hh.symm
      rw [if_pos hu, findTask, findTask, if_neg hti, if_neg hui]
      exact ih
    · rw [if_neg hu, findTask, findTask]
      by_cases hui : u.id = i
      · rw [if_pos hui, if_pos hui]
      · rw [if_neg hui, if_neg hui]
        exact ih

/-- Lookup of an id no row carries misses. -/
theorem findTask_eq_none (s : Store) (i : String)
    (h : ∀ u ∈ s, u.id ≠ i) : findTask s i = none := by
  induction s with
  | nil => simp [findTask]
  | cons u rest ih =>
    rw [findTask, if_neg (h u (List.mem_cons_self u rest))]
    exact ih (fun v hv => h v (List.mem_cons_of_mem u hv))

/-- With unique ids, lookup of the id of a member returns that member. -/
theorem findTask_of_mem_nodup (s : Store) (t : Task)
    (hnd : (s.map Task.id).Nodup) (hmem : t ∈ s) : findTask s t.id = some t := by
  induction s with
  | nil => cases hmem
  | cons u rest ih =>
    rw [List.map_cons, List.nodup_cons] at hnd
    obtain ⟨hu, hrest⟩ := hnd
    rcases List.mem_cons.mp hmem with h | h
    · rw [h, findTask, if_pos rfl]
    · by_cases he : u.id = t.id
      · exact absurd (he ▸ List.mem_map_of_mem Task.id h) hu
      · rw [findTask, if_neg he]
        exact ih hrest h

/-- With unique ids, two members sharing an id are the same row. -/
theorem eq_of_mem_id_nodup (s : Store) (t v : Task)
    (hnd : (s.map Task.id).Nodup) (ht : t ∈ s) (hv : v ∈ s)
    (hid : v.id = t.id) : v = t := by
  have h1 := findTask_of_mem_nodup s t hnd ht
  have h2 := findTask_of_mem_nodup s v hnd hv
  rw [hid, h1] at h2
  exact (Option.some.injEq t v ▸ h2).symm

/-- Membership in a row update comes from the table or is the update. -/
theorem mem_updateStore (s : Store) (i : String) (t2 v : Task)
    (h : v ∈ updateStore s i t2) : v ∈ s ∨ v = t2 := by
  unfold updateStore at h
  rcases List.mem_map.mp h with ⟨w, hw, he⟩
  by_cases hc : w.id = i
  · rw [if_pos hc] at he
    exact Or.inr he.symm
  · rw [if_neg hc] at he
    exact Or.inl (he ▸ hw)

/-- Insertion into a sorted list adds no new rows. -/
theorem mem_insertSorted (le : Task → Task → Bool) (t u : Task) (l : List Task)
    (h : u ∈ insertSorted le t l) : u = t ∨ u ∈ l := by
  induction l with
  | nil =>
    rw [insertSorted] at h
    exact Or.inl (List.mem_singleton.mp h)
  | cons w ws ih =>
    rw [insertSorted] at h
    by_cases hc : le t w = true
    · rw [if_pos hc] at h
      rcases List.mem_cons.mp h with h1 | h1
      · exact Or.inl h1
      · exact Or.inr h1
    · rw [if_neg hc] at h
      rcases List.mem_cons.mp h with h1 | h1
      · exact Or.inr (h1 ▸ List.mem_cons_self w ws)
      · rcases ih h1 with h2 | h2
        · exact Or.inl h2
        · exact Or.inr (List.mem_cons_of_mem w h2)

/-- The sort adds no new rows. -/
theorem mem_sortBy (le : Task → Task → Bool) (u : Task) (l : List Task)
    (h : u ∈ sortBy le l) : u ∈ l := by
  induction l with
  | nil => simp [sortBy] at h
  | cons w ws ih =>
    rw [sortBy] at h
    rcases mem_insertSorted le w u (sortBy le ws) h with h1 | h1
    · exact h1 ▸ List.mem_cons_self w ws
    · exact List.mem_cons_of_mem w (ih h1)

/-- Rows of the eligible snapshot are rows of the store. -/
theorem mem_pendingSnapshot (s : Store) (u : Task)
    (h : u ∈ pendingSnapshot s) : u ∈ s := by
  unfold pendingSnapshot at h
  exact (List.mem_filter.mp (mem_sortBy claimOrder u _ h)).1

/-- Rows of the eligible snapshot are pending or queued. -/
theorem status_mem_pendingSnapshot (s : Store) (u : Task)
    (h : u ∈ pendingSnapshot s) :
    u.status = TaskStatus.pending ∨ u.status = TaskStatus.queued := by
  unfold pendingSnapshot at h
  have h2 := (List.mem_filter.mp (mem_sortBy claimOrder u _ h)).2
  rcases Bool.or_eq_true_iff.mp h2 with h3 | h3
  · exact Or.inl (of_decide_eq_true h3)
  · exact Or.inr (of_decide_eq_true h3)

/-- A row the scan returns is a row of the scanned list. -/
theorem getNextLoop_ret_mem (l : List Task) : ∀ (s : Store) (u : Task),
    (getNextLoop s l).1 = some u → u ∈ l := by
  induction l with
  | nil =>
    intro s u h
    simp [getNextLoop] at h
  | cons t rest ih =>
    intro s u h
    rw [getNextLoop] at h
    cases hdep : getDependsOn t.result with
    | none =>
      rw [hdep] at h
      simp only [] at h
      injection h with hh
      subst hh
      exact List.mem_cons_self _ _
    | some dep =>
      rw [hdep] at h
      simp only [] at h
      cases hf : findTask s dep with
      | none =>
        rw [hf] at h
        simp only [] at h
        exact List.mem_cons_of_mem t (ih _ _ h)
      | some depTask =>
        rw [hf] at h
        simp only [] at h
        by_cases hc : depTask.status = TaskStatus.complete
        · rw [if_pos hc] at h
          injection h with hh
          subst hh
          exact List.mem_cons_self _ _
        · rw [if_neg hc] at h
          by_cases he : depTask.status = TaskStatus.error
          · rw [if_pos he] at h
            exact List.mem_cons_of_mem t (ih _ _ h)
          · rw [if_neg he] at h
            exact List.mem_cons_of_mem t (ih _ _ h)

/-- When no row of the store carries the id d, the scan never returns a
row whose dependency reference is d: such a row is always skipped. -/
theorem getNextLoop_no_missing_dep (d : String) (l : List Task) : ∀ (s : Store),
    (∀ v ∈ s, v.id ≠ d) → (∀ v ∈ l, v.id ≠ d) →
    ∀ u : Task, (getNextLoop s l).1 = some u → getDependsOn u.result ≠ some d := by
  induction l with
  | nil =>
    intro s _ _ u h
    simp [getNextLoop] at h
  | cons t rest ih =>
    intro s hs hl u h
    have hlrest : ∀ v ∈ rest, v.id ≠ d :=
      fun v hv => hl v (List.mem_cons_of_mem t hv)
    rw [getNextLoop] at h
    cases hdep : getDependsOn t.result with
    | none =>
      rw [hdep] at h
      simp only [] at h
      injection h with hh
      subst hh
      rw [hdep]
      exact fun hc => Option.noConfusion hc
    | some dep =>
      rw [hdep] at h
      simp only [] at h
      cases hf : findTask s dep with
      | none =>
        rw [hf] at h
        simp only [] at h
        exact ih s hs hlrest u h
      | some depTask =>
        rw [hf] at h
        simp only [] at h
        by_cases hc : depTask.status = TaskStatus.complete
        · rw [if_pos hc] at h
          injection h with hh
          subst hh
          rw [hdep]
          intro hcon
          injection hcon with hdd
          exact hs depTask (findTask_mem s dep depTask hf)
            (hdd ▸ findTask_some_id s dep depTask hf)
        · rw [if_neg hc] at h
          by_cases he : depTask.status = TaskStatus.error
          · rw [if_pos he] at h
            apply ih _ ?_ hlrest u h
            intro v hv
            rcases mem_updateStore _ _ _ _ hv with h1 | h1
            · exact hs v h1
            · rw [h1]
              exact hl t (List.mem_cons_self _ _)
          · rw [if_neg he] at h
            exact ih s hs hlrest u h

/-- When no row of the store carries the id d, a scan leaves a row whose
dependency reference is d exactly as it was: lookup of its id after the
scan still returns the original row. -/
theorem getNextLoop_preserves_missing (d : String) (t : Task)
    (hdep : getDependsOn t.result = some d) (l : List Task) : ∀ (s : Store),
    (∀ v ∈ s, v.id ≠ d) → (∀ v ∈ l, v.id ≠ d) →
    (∀ v ∈ l, v.id = t.id → v = t) →
    findTask s t.id = some t →
    findTask (getNextLoop s l).2 t.id = some t := by
  induction l with
  | nil =>
    intro s _ _ _ hf
    simpa [getNextLoop] using hf
  | cons u rest ih =>
    intro s hs hl hl2 hf
    have hlrest : ∀ v ∈ rest, v.id ≠ d :=
      fun v hv => hl v (List.mem_cons_of_mem u hv)
    have hl2rest : ∀ v ∈ rest, v.id = t.id → v = t :=
      fun v hv => hl2 v (List.mem_cons_of_mem u hv)
    rw [getNextLoop]
    cases hud : getDependsOn u.result with
    | none =>
      simp only []
      exact hf
    | some dep =>
      simp only []
      cases hfd : findTask s dep with
      | none => exact ih s hs hlrest hl2rest hf
      | some depTask =>
        simp only []
        by_cases hc : depTask.status = TaskStatus.complete
        · rw [if_pos hc]
          exact hf
        · rw [if_neg hc]
          by_cases he : depTask.status = TaskStatus.error
          · rw [if_pos he]
            have hut : u.id ≠ t.id := by
              intro hh
              have huu := hl2 u (List.mem_cons_self _ _) hh
              rw [huu, hdep] at hud
              injection hud with hdd
              rw [← hdd] at hfd
              rw [findTask_eq_none s d hs] at hfd
              exact Option.noConfusion hfd
            apply ih
            · intro v hv
              rcases mem_updateStore _ _ _ _ hv with h1 | h1
              · exact hs v h1
              · rw [h1]
                exact hl u (List.mem_cons_self _ _)
            · exact hlrest
            · exact hl2rest
            · rw [findTask_updateStore_ne s t.id u.id { u with status := TaskStatus.error, result := jSet u.result "error" (JVal.jstr ("Dependency " ++ dep ++ " failed")) } (Ne.symm hut) rfl]
              exact hf
          · rw [if_neg he]
            exact ih s hs hlrest hl2rest hf

/-- A list is a prefix of itself followed by anything. -/
theorem listPre_self_append (n p : List Char) : listPre n (n ++ p) = true := by
  induction n with
  | nil => rw [listPre]
  | cons a as ih =>
    rw [List.cons_append, listPre, ih]
    simp

/-- A list occurs as a substring wherever it sits between two others. -/
theorem listSub_mid (x n p : List Char) : listSub n (x ++ (n ++ p)) = true := by
  induction x with
  | nil =>
    rw [List.nil_append]
    cases hnp : n ++ p with
    | nil =>
      rcases List.append_eq_nil.mp hnp with ⟨hn, _⟩
      subst hn
      rw [listSub]
      rfl
    | cons c rest =>
      rw [listSub, ← hnp, listPre_self_append]
      rfl
  | cons a x2 ih =>
    rw [List.cons_append, listSub, ih]
    simp

/-- A text contains any text spliced into its middle. -/
theorem strContains_mid (pre d post : String) :
    strContains (pre ++ d ++ post) d = true := by
  unfold strContains
  rw [String.data_append, String.data_append]
  rw [List.append_assoc]
  exact listSub_mid pre.data d.data post.data

/-- Failing input of claim C1: a store holding one freshly enqueued
pending task. -/
def c1Store : Store :=
  [Task.mk "t1" TaskStatus.pending (enqueuePayload "summary" 42 5 none none 3 0)]

/-- Claim C1 states that the claim step transitions a task to queued only
if it is currently eligible, as a single atomic conditional update, so
two claim operations can never both claim the same task. Evaluating the
embedded code on a store with a single pending task refutes this even
sequentially: the first claim returns t1 and marks it queued, and the
second claim returns t1 again, because the selection query of
get_next_task also admits rows already queued and the queued mark is a
separate unconditional update. -/
theorem double_claim_same_task :
    (claimNext c1Store).1 = some "t1" ∧
    (claimNext (claimNext c1Store).2).1 = some "t1" := by decide

/-- Fixture of claim C2: eligible pending task of priority 1 whose
payload text sorts lexically low. -/
def c2TaskA : Task := Task.mk "a" TaskStatus.pending (enqueuePayload "alpha" 1 1 none none 3 0)

/-- Fixture of claim C2: eligible pending task of priority 2 whose
payload text sorts lexically high. -/
def c2TaskB : Task := Task.mk "b" TaskStatus.pending (enqueuePayload "beta" 1 2 none none 3 0)

/-- Claim C2 states that dequeue selects the eligible task with the
lowest numeric priority, ties by earliest created_at. Evaluating the
embedded code refutes this: with two eligible pending tasks of
priorities 1 and 2, get_next_task returns the priority 2 task, because
the query orders by status and then by the serialized payload text
descending, and the text of the beta payload sorts above the text of
the alpha payload. -/
theorem priority_ignored_in_selection :
    (getNextTask [c2TaskA, c2TaskB]).1 = some c2TaskB ∧
    specEligible [c2TaskA, c2TaskB] 0 c2TaskA = true ∧
    specEligible [c2TaskA, c2TaskB] 0 c2TaskB = true ∧
    jGetInt c2TaskA.result "priority" 5 < jGetInt c2TaskB.result "priority" 5 := by decide

/-- Fixture of claim C3: a retrying task with no dependency whose
retry_at of 10 has long elapsed at observation time 100. -/
def c3Task : Task := Task.mk "r1" TaskStatus.retrying
  (jSet (enqueuePayload "summary" 7 5 none none 3 0) "retry_at" (JVal.jint 10))

/-- Claim C3 states that a retrying task with elapsed retry_at and a
satisfied dependency is in the eligible set considered by dequeue.
Evaluating the embedded code refutes this: the task is eligible in the
words of the specification, yet get_next_task returns nothing and leaves
the store untouched, because its snapshot query filters on the statuses
pending and queued only and never considers retrying rows. -/
theorem retrying_never_selected :
    getNextTask [c3Task] = (none, [c3Task]) ∧
    specEligible [c3Task] 100 c3Task = true := by decide

/-- Handler registry of claim C4: the summary handler raises with the
message boom and commits nothing of its own. -/
def c4Reg : List (String × Handler) := [("summary", fun s _ _ => HandlerOutcome.exn "boom" s)]

/-- Fixture of claim C4: a freshly enqueued task (attempts 0,
max_attempts 3) already claimed to queued. -/
def c4Task : Task := Task.mk "t4" TaskStatus.queued (enqueuePayload "summary" 42 5 none none 3 0)

/-- The row claim C4 observes after one failed processing at time 100:
status retrying, attempts still 0, retry_at 160, last_error boom. -/
def c4Row : Task := Task.mk "t4" TaskStatus.retrying
  (jSet (jSet (jSet (enqueuePayload "summary" 42 5 none none 3 0)
    "attempts" (JVal.jint 0)) "retry_at" (JVal.jint 160)) "last_error" (JVal.jstr "boom"))

/-- Claim C4 states that a failed attempt increments the recorded
attempts count and sets retry_at to now plus min of base delay times two
to the attempts and the cap. Evaluating the embedded code at time 100 on
a fresh task whose handler raises boom shows the recorded attempts count
is unchanged at 0 rather than incremented: the failure branch rewrites
the payload from the dict loaded at entry, which discards the increment
the processing mark had committed. The retry delay of 60 is computed
from the stale pre-increment count. -/
theorem failure_leaves_attempts_unchanged :
    (process_task c4Reg 3 100 [c4Task] c4Task).1 = false ∧
    findTask (process_task c4Reg 3 100 [c4Task] c4Task).2 "t4" = some c4Row ∧
    c4Row.status = TaskStatus.retrying ∧
    jGet c4Row.result "attempts" = some (JVal.jint 0) ∧
    jGet c4Row.result "attempts" ≠ some (JVal.jint 1) ∧
    jGet c4Row.result "retry_at" = some (JVal.jint 160) ∧
    jGet c4Row.result "last_error" = some (JVal.jstr "boom") := by decide

/-- Handler registry of claim C5: the summary handler raises boom on
every invocation. -/
def c5Reg : List (String × Handler) := [("summary", fun s _ _ => HandlerOutcome.exn "boom" s)]

/-- Fixture of claim C5: a store with one freshly enqueued pending task,
attempts 0 and max_attempts 3. -/
def c5Store : Store :=
  [Task.mk "t5" TaskStatus.pending (enqueuePayload "summary" 42 5 none none 3 0)]

/-- The row claim C5 observes after the first worker round. -/
def c5Row : Task := Task.mk "t5" TaskStatus.retrying
  (jSet (jSet (jSet (enqueuePayload "summary" 42 5 none none 3 0)
    "attempts" (JVal.jint 0)) "retry_at" (JVal.jint 160)) "last_error" (JVal.jstr "boom"))

/-- Claim C5 states that a task with max_attempts 3 whose handler always
fails is driven through pending, retrying, retrying and finally error,
with attempts reaching exactly 3. Evaluating the embedded code refutes
this: after the first failed worker round the task sits at retrying with
attempts still 0, the next claim finds nothing (retrying rows are
outside the snapshot query), and any further worker round leaves the
store fixed, so the task never advances toward error and attempts never
moves. -/
theorem always_failing_task_stuck_retrying :
    findTask (workerRound c5Reg 3 100 c5Store) "t5" = some c5Row ∧
    c5Row.status = TaskStatus.retrying ∧
    jGet c5Row.result "attempts" = some (JVal.jint 0) ∧
    (claimNext (workerRound c5Reg 3 100 c5Store)).1 = none ∧
    workerRound c5Reg 3 200 (workerRound c5Reg 3 100 c5Store) =
      workerRound c5Reg 3 100 c5Store := by decide

/-- Fixture of claim C6: a failed predecessor whose payload records the
failure message boom. -/
def c6A : Task := Task.mk "A" TaskStatus.error
  (jSet (enqueuePayload "alpha" 1 5 none none 3 0) "error" (JVal.jstr "boom"))

/-- Fixture of claim C6: a pending task depending on the failed task A. -/
def c6B : Task := Task.mk "B" TaskStatus.pending
  (enqueuePayload "beta" 1 5 none (some "A") 3 1)

/-- The row the cascade of get_next_task writes for a task whose
dependency d failed. -/
def cascaded (t : Task) (d : String) : Task :=
  { t with status := TaskStatus.error, result := jSet t.result "error" (JVal.jstr ("Dependency " ++ d ++ " failed")) }

/-- Counterexample to claim C6 as stated: the claim requires the error of
the dependent task to reference the id and the message of the failed
predecessor. Evaluating the embedded code on a store where A failed with
message boom and B depends on A gives B the error text Dependency A
failed, which contains the id A but does not contain the predecessor
message boom. -/
theorem dependency_message_not_referenced :
    (getNextTask [c6A, c6B]).1 = none ∧
    findTask (getNextTask [c6A, c6B]).2 "B" = some (cascaded c6B "A") ∧
    (cascaded c6B "A").status = TaskStatus.error ∧
    jGet (cascaded c6B "A").result "error" = some (JVal.jstr "Dependency A failed") ∧
    jGet c6A.result "error" = some (JVal.jstr "boom") ∧
    strContains "Dependency A failed" "A" = true ∧
    strContains "Dependency A failed" "boom" = false := by decide

/-- Claim C6 as amended: when the scan of get_next_task reaches a task
whose depends_on predecessor has status error, the task is immediately
rewritten to error with a message referencing the id of the failed
predecessor (not its message), it is not the task the call returns, and
its new row can never appear in a later eligible snapshot, so its
handler is never invoked. -/
theorem dependency_error_cascade (s : Store) (t : Task) (rest : List Task)
    (d : String) (dep : Task)
    (hdep : getDependsOn t.result = some d)
    (hfind : findTask s d = some dep)
    (herr : dep.status = TaskStatus.error)
    (hrest : ∀ u ∈ rest, u.id ≠ t.id) :
    getNextLoop s (t :: rest) =
      getNextLoop (updateStore s t.id (cascaded t d)) rest ∧
    (cascaded t d).status = TaskStatus.error ∧
    jGet (cascaded t d).result "error" =
      some (JVal.jstr ("Dependency " ++ d ++ " failed")) ∧
    strContains ("Dependency " ++ d ++ " failed") d = true ∧
    (getNextLoop s (t :: rest)).1 ≠ some t ∧
    ∀ s2 : Store, cascaded t d ∉ pendingSnapshot s2 := by
  have key : getNextLoop s (t :: rest) =
      getNextLoop (updateStore s t.id (cascaded t d)) rest := by
    rw [getNextLoop, hdep]
    simp only []
    rw [hfind]
    simp only []
    rw [herr]
    rw [if_neg (by decide : ¬(TaskStatus.error = TaskStatus.complete))]
    rw [if_pos rfl]
    rfl
  refine ⟨key, rfl, jGet_jSet_self t.result "error" _, strContains_mid "Dependency " d " failed", ?_, ?_⟩
  · intro hcon
    rw [key] at hcon
    exact hrest t (getNextLoop_ret_mem rest _ t hcon) rfl
  · intro s2 hmem
    rcases status_mem_pendingSnapshot s2 _ hmem with h | h
    · simp [cascaded] at h
    · simp [cascaded] at h

/-- Witness for the amended claim C6 at the concrete A and B fixture. -/
theorem dependency_error_cascade_witness :
    getNextLoop [c6A, c6B] (c6B :: []) =
      getNextLoop (updateStore [c6A, c6B] c6B.id (cascaded c6B "A")) [] ∧
    (cascaded c6B "A").status = TaskStatus.error ∧
    jGet (cascaded c6B "A").result "error" =
      some (JVal.jstr ("Dependency " ++ "A" ++ " failed")) ∧
    strContains ("Dependency " ++ "A" ++ " failed") "A" = true ∧
    (getNextLoop [c6A, c6B] (c6B :: [])).1 ≠ some c6B ∧
    ∀ s2 : Store, cascaded c6B "A" ∉ pendingSnapshot s2 :=
  dependency_error_cascade [c6A, c6B] c6B [] "A" c6A (by decide) (by decide)
    (by decide) (by decide)

/-- The row process_task commits when no handler is registered for the
task type of the payload. -/
def noHandlerRow (task : Task) : Task :=
  { task with status := TaskStatus.error, result := jSet task.result "error" (JVal.jstr ("No handler for task type: " ++ pyShow (jGet task.result "task_type"))) }

/-- Claim C7: for every task whose task type has no registered handler,
process_task commits only the configuration error row - status error
with the missing-handler message - returns false, and the attempts and
retry_at keys of the payload are exactly those of the entry payload, so
no retry attempt is consumed and no retry is scheduled; the committed
outcome is the same whatever the registered handlers would do. -/
theorem no_handler_immediate_error (reg : List (String × Handler))
    (maxR now : Int) (s : Store) (task : Task)
    (h : regLookup reg (jGet task.result "task_type") = none) :
    process_task reg maxR now s task =
      (false, updateStore s task.id (noHandlerRow task)) ∧
    (noHandlerRow task).status = TaskStatus.error ∧
    jGet (noHandlerRow task).result "error" =
      some (JVal.jstr ("No handler for task type: " ++ pyShow (jGet task.result "task_type"))) ∧
    jGet (noHandlerRow task).result "attempts" = jGet task.result "attempts" ∧
    jGet (noHandlerRow task).result "retry_at" = jGet task.result "retry_at" := by
  refine ⟨?_, rfl, jGet_jSet_self task.result "error" _, ?_, ?_⟩
  · simp only [process_task]
    rw [h]
    rfl
  · exact jGet_jSet_ne task.result "error" "attempts" _ (by decide)
  · exact jGet_jSet_ne task.result "error" "retry_at" _ (by decide)

/-- A handler that returns at once, registered for the summary type in
the claim C7 witness registry. -/
def c7Handler : Handler := fun s _ _ => HandlerOutcome.ok s

/-- Registry of the claim C7 witness: only the summary type is bound. -/
def c7Reg : List (String × Handler) := [("summary", c7Handler)]

/-- Fixture of claim C7: a claimed task of the unregistered type
mystery. -/
def c7Task : Task := Task.mk "m1" TaskStatus.queued (enqueuePayload "mystery" 42 5 none none 3 0)

/-- Witness for claim C7 at a registry binding only the summary type and
a task of the unregistered type mystery. -/
theorem no_handler_immediate_error_witness :
    process_task c7Reg 3 100 [c7Task] c7Task =
      (false, updateStore [c7Task] c7Task.id (noHandlerRow c7Task)) ∧
    jGet (noHandlerRow c7Task).result "attempts" = jGet c7Task.result "attempts" :=
  ⟨(no_handler_immediate_error c7Reg 3 100 [c7Task] c7Task rfl).1,
   (no_handler_immediate_error c7Reg 3 100 [c7Task] c7Task rfl).2.2.2.1⟩

/-- The row retry_task commits: status pending, attempts reset to zero,
manual retry marker appended. -/
def retriedRow (t : Task) : Task :=
  { t with status := TaskStatus.pending, result := jSet (jSet t.result "attempts" (JVal.jint 0)) "retry_reason" (JVal.jstr "manual") }

/-- Claim C8: for every stored task with status error, retry_task reports
success and commits the task back to pending with attempts zero; the
reset row, when it has no dependency reference, is returned as soon as a
dequeue scan reaches it, so the task re-executes from scratch on a
subsequent worker poll. -/
theorem retry_resets_error_task (s : Store) (tid : String) (t : Task)
    (hf : findTask s tid = some t) (_hstat : t.status = TaskStatus.error) :
    (retry_task s tid).1 = true ∧
    (retry_task s tid).2 = updateStore s tid (retriedRow t) ∧
    findTask (retry_task s tid).2 tid = some (retriedRow t) ∧
    (retriedRow t).status = TaskStatus.pending ∧
    jGet (retriedRow t).result "attempts" = some (JVal.jint 0) ∧
    (getDependsOn t.result = none →
      ∀ (s2 : Store) (rest : List Task),
        getNextLoop s2 (retriedRow t :: rest) = (some (retriedRow t), s2)) := by
  have hid := findTask_some_id s tid t hf
  have hpair : retry_task s tid = (true, updateStore s tid (retriedRow t)) := by
    simp only [retry_task]
    rw [hf]
    rfl
  refine ⟨by rw [hpair], by rw [hpair], ?_, rfl, ?_, ?_⟩
  · rw [hpair]
    exact findTask_updateStore_eq s tid t (retriedRow t) hf
      (by rw [show (retriedRow t).id = t.id from rfl, hid])
  · rw [show (retriedRow t).result = jSet (jSet t.result "attempts" (JVal.jint 0)) "retry_reason" (JVal.jstr "manual") from rfl]
    rw [jGet_jSet_ne _ "retry_reason" "attempts" _ (by decide)]
    exact jGet_jSet_self t.result "attempts" _
  · intro hdep s2 rest
    have hdep2 : getDependsOn (retriedRow t).result = none := by
      unfold getDependsOn at hdep ⊢
      rw [show (retriedRow t).result = jSet (jSet t.result "attempts" (JVal.jint 0)) "retry_reason" (JVal.jstr "manual") from rfl]
      rw [jGet_jSet_ne _ "retry_reason" "depends_on" _ (by decide)]
      rw [jGet_jSet_ne _ "attempts" "depends_on" _ (by decide)]
      exact hdep
    rw [getNextLoop, hdep2]

/-- Fixture of claim C8: a task in terminal error with message boom. -/
def c8Task : Task := Task.mk "e1" TaskStatus.error
  (jSet (enqueuePayload "summary" 9 5 none none 3 0) "error" (JVal.jstr "boom"))

/-- Witness for claim C8 at a store holding one terminal error task. -/
theorem retry_resets_error_task_witness :
    (retry_task [c8Task] "e1").1 = true ∧
    findTask (retry_task [c8Task] "e1").2 "e1" = some (retriedRow c8Task) ∧
    getNextLoop [] (retriedRow c8Task :: []) = (some (retriedRow c8Task), []) := by
  have h := retry_resets_error_task [c8Task] "e1" c8Task (by decide) (by decide)
  exact ⟨h.1, h.2.2.1, h.2.2.2.2.2 (by decide) [] []⟩

/-- Claim C9: the payload enqueue builds (and enqueue_chain reuses)
carries no top-level batch_id key - a caller-supplied batch key sits
inside the metadata value - and therefore get_batch_status over a store
of payloads without a top-level batch_id returns the all-zero aggregate
with an empty per-task list, for every queried batch id. -/
theorem enqueue_payload_has_no_batch :
    (∀ (task_type : String) (file_id priority : Int) (metadata : Option JVal)
        (depends_on : Option String) (maxR created_at : Int),
        jGet (enqueuePayload task_type file_id priority metadata depends_on maxR created_at)
          "batch_id" = none) ∧
    (∀ (s : Store) (b : String),
        (∀ t ∈ s, jGet t.result "batch_id" = none) →
        get_batch_status s b = BatchStatus.mk 0 0 0 0 0 []) := by
  constructor
  · intro task_type file_id priority metadata depends_on maxR created_at
    simp [enqueuePayload, jGet]
  · intro s b h
    have hfil : s.filter
        (fun t => decide (jGet t.result "batch_id" = some (JVal.jstr b))) = [] := by
      rw [List.filter_eq_nil_iff]
      intro t ht
      simp [h t ht]
    simp only [get_batch_status]
    rw [hfil]
    rfl

/-- Witness for claim C9: one enqueued task, one arbitrary batch key. -/
theorem enqueue_payload_has_no_batch_witness :
    jGet (enqueuePayload "summary" 42 5 none none 3 0) "batch_id" = none ∧
    get_batch_status
      [Task.mk "w9" TaskStatus.pending (enqueuePayload "summary" 42 5 none none 3 0)]
      "groupX" = BatchStatus.mk 0 0 0 0 0 [] :=
  ⟨enqueue_payload_has_no_batch.1 "summary" 42 5 none none 3 0,
   enqueue_payload_has_no_batch.2 _ "groupX" (by decide)⟩

/-- Claim C10: a task whose depends_on references an id no row of the
store carries is never the task get_next_task returns, and the call
leaves its row exactly as it was, so it stays pending indefinitely with
no error cascade applied to it. -/
theorem missing_dependency_task_untouched (s : Store) (t : Task) (d : String)
    (hmem : t ∈ s) (hnodup : (s.map Task.id).Nodup)
    (hdep : getDependsOn t.result = some d)
    (hmiss : ∀ u ∈ s, u.id ≠ d) :
    (getNextTask s).1 ≠ some t ∧ findTask (getNextTask s).2 t.id = some t := by
  have hsnap : ∀ v ∈ pendingSnapshot s, v.id ≠ d :=
    fun v hv => hmiss v (mem_pendingSnapshot s v hv)
  have hsnap2 : ∀ v ∈ pendingSnapshot s, v.id = t.id → v = t :=
    fun v hv hidv => eq_of_mem_id_nodup s t v hnodup hmem (mem_pendingSnapshot s v hv) hidv
  constructor
  · intro hcon
    exact getNextLoop_no_missing_dep d (pendingSnapshot s) s hmiss hsnap t hcon hdep
  · exact getNextLoop_preserves_missing d t hdep (pendingSnapshot s) s hmiss hsnap hsnap2
      (findTask_of_mem_nodup s t hnodup hmem)

/-- Fixture of claim C10: a pending task depending on an id that exists
nowhere in the store. -/
def c10Task : Task := Task.mk "x1" TaskStatus.pending
  (enqueuePayload "summary" 42 5 none (some "ghost") 3 0)

/-- Witness for claim C10 at a store holding only the orphaned task. -/
theorem missing_dependency_task_untouched_witness :
    (getNextTask [c10Task]).1 ≠ some c10Task ∧
    findTask (getNextTask [c10Task]).2 c10Task.id = some c10Task :=
  missing_dependency_task_untouched [c10Task] c10Task "ghost" (by decide) (by decide)
    (by decide) (by decide)

end AudioPaper
